import Mathlib

/-!
Verification development for the UNDERTALE save manager
(src/undertale_manager/__init__.py).

The Python module is shallowly embedded:
* pure string/number manipulation becomes Lean functions on String / Int;
* file contents become explicit values (a save file is a list of lines,
  a directory is a finite list of named entries);
* fallible code (IndexError, ValueError, shutil errors) is modelled with
  Except / explicit success flags;
* the filesystem side effects of the snapshot manager become explicit
  state passing on an FS record holding the live save directory and the
  backup world.
-/

namespace UndertaleSpec

/-! ## Python string and list primitives used by the module -/

/-- Whitespace characters removed by Python str.strip (the ASCII ones;
save files contain no exotic unicode whitespace). -/
def isSpaceChar (c : Char) : Bool :=
  c == ' ' || c == '\t' || c == '\n' || c == '\r' || c == '\x0b' || c == '\x0c'

/-- Drop leading whitespace characters. -/
def dropSpaces : List Char → List Char
  | [] => []
  | c :: rest => if isSpaceChar c then dropSpaces rest else c :: rest

/-- Model of Python str.strip with no argument: remove leading and
trailing whitespace. -/
def pystrip (s : String) : String :=
  String.mk ((dropSpaces ((dropSpaces s.data).reverse)).reverse)

/-- ASCII lower-casing of one character, as str.lower acts on the
characters appearing in area names. -/
def lowerChar (c : Char) : Char :=
  if 65 ≤ c.toNat ∧ c.toNat ≤ 90 then Char.ofNat (c.toNat + 32) else c

/-- Model of Python str.lower on the ASCII area names. -/
def lowerStr (s : String) : String := String.mk (s.data.map lowerChar)

/-- Accumulate a decimal digit string; any non-digit character fails.
Used to model the digit part of Python int parsing. -/
def digitsToNat : List Char → Nat → Option Nat
  | [], acc => some acc
  | c :: rest, acc =>
    if c.isDigit then digitsToNat rest (acc * 10 + (c.toNat - 48)) else none

/-- Model of Python int(s) on a decimal string: surrounding whitespace is
ignored, an optional single sign is allowed, then a nonempty digit run
(the underscore-grouping extension of the Python grammar is not used by
save files and is not modelled). Returns none where Python raises
ValueError. -/
def pyInt (s : String) : Option Int :=
  match (pystrip s).toList with
  | [] => none
  | '-' :: rest =>
    match rest with
    | [] => none
    | _ => (digitsToNat rest 0).map (fun n => -(n : Int))
  | '+' :: rest =>
    match rest with
    | [] => none
    | _ => (digitsToNat rest 0).map (fun n => (n : Int))
  | l => (digitsToNat l 0).map (fun n => (n : Int))

/-- Model of Python list indexing lst[i]: negative indices address from
the end; none where Python raises IndexError. -/
def pyGet {α : Type} (l : List α) (i : Int) : Option α :=
  if 0 ≤ i then l.get? i.toNat
  else if 0 ≤ (l.length : Int) + i then l.get? ((l.length : Int) + i).toNat
  else none

/-- Model of Python round(t / 30) for an integer tick count t: the true
rational quotient t/30 rounded to the nearest integer, ties to even
(Python's round is banker's rounding; at the tie points t/30 is exactly
representable as a float, and elsewhere the quotient is far enough from
a half-integer that the float division cannot change the result). -/
def pyRoundDiv30 (t : Int) : Int :=
  if t % 30 < 15 then t / 30
  else if 15 < t % 30 then t / 30 + 1
  else if (t / 30) % 2 = 0 then t / 30 else t / 30 + 1

/-- Access line i of the save data and strip it, as data[i].strip();
IndexError when the file is too short. -/
def getLine (data : List String) (i : Nat) : Except String String :=
  match data.get? i with
  | some s => Except.ok (pystrip s)
  | none => Except.error "IndexError"

/-! ## The Save reader and genocide classifier (Save.__init__) -/

/-- One record of the static ROOM_IDS table (undertale_manager/ids.py):
a Python dict with optional "id", "area" and "name" keys, read with
dict.get and a default of the empty string. -/
structure RoomRec where
  id : Option String
  area : Option String
  name : Option String

/-- A Python attribute that holds either a string or a bool, as
Save.genocide does ("N/A" on the invalid branch, a bool otherwise). -/
inductive GenoVal where
  | str : String → GenoVal
  | bool : Bool → GenoVal

/-- The attributes Save.__init__ assigns. playtime is Option-valued
because the invalid branch never assigns the attribute at all. -/
structure Save where
  TITLE : String
  NAME : String
  FUN : String
  LOVE : String
  HP : String
  GOLD : String
  EXP : String
  kills : String
  room_id : String
  room_name : String
  room_area : String
  playtime : Option Int
  genocide : GenoVal
  data : List String

/-- The record built by the invalid-save early-return branch of
Save.__init__ (lines 81-94 of the module). -/
def emptySave (title : String) : Save :=
  { TITLE := title
    NAME := "(Empty Save)"
    FUN := "N/A"
    LOVE := "N/A"
    HP := "N/A"
    GOLD := "N/A"
    EXP := "N/A"
    kills := "N/A"
    room_id := "N/A"
    room_name := "N/A"
    room_area := "N/A"
    playtime := none
    genocide := GenoVal.str "N/A"
    data := [] }

/-- The match statement on self.room_area.lower() mapping the area name
to the current-area ordinal (lines 112-128). -/
def areaRank (area : String) : Nat :=
  if lowerStr area == "error" then 0
  else if lowerStr area == "ruins" then 1
  else if lowerStr area == "snowdin" then 2
  else if lowerStr area == "waterfall" then 3
  else if lowerStr area == "hotland" then 4
  else if lowerStr area == "core" then 5
  else if lowerStr area == "new home" then 6
  else 7

/-- The LOVE comparison int(self.LOVE) >= 19 of line 141; ValueError
when LOVE is not numeric. -/
def loveCheck (lv : String) : Except String Bool :=
  match pyInt lv with
  | some l => Except.ok (decide (19 ≤ l))
  | none => Except.error "ValueError"

/-- The genocide_areas construction and final classification of lines
130-143: each region check is appended only when the current-area
ordinal reaches its threshold, and the result is all of the collected
checks, or-ed with the line-510 override flag. -/
def genocideOf (data : List String) (area : String) (lv : String) :
    Except String Bool :=
  let rank := areaRank area
  match (if 1 ≤ rank then (getLine data 251).map (fun v => [v == "1"]) else Except.ok []) with
  | Except.error e => Except.error e
  | Except.ok c1 =>
  match (if 2 ≤ rank then (getLine data 252).map (fun v => [v == "1"]) else Except.ok []) with
  | Except.error e => Except.error e
  | Except.ok c2 =>
  match (if 3 ≤ rank then (getLine data 253).map (fun v => [v == "1"]) else Except.ok []) with
  | Except.error e => Except.error e
  | Except.ok c3 =>
  match (if 4 ≤ rank then
           match getLine data 254, getLine data 255 with
           | Except.ok a, Except.ok b => Except.ok [a == "1" || b == "1"]
           | Except.error e, _ => Except.error e
           | _, Except.error e => Except.error e
         else Except.ok []) with
  | Except.error e => Except.error e
  | Except.ok c4 =>
  match (if 6 ≤ rank then (loveCheck lv).map (fun b => [b]) else Except.ok []) with
  | Except.error e => Except.error e
  | Except.ok c5 =>
  match getLine data 510 with
  | Except.error e => Except.error e
  | Except.ok ov =>
    Except.ok ((c1 ++ c2 ++ c3 ++ c4 ++ c5).all id || ov == "1")

/-- Embedding of Save.__init__. The directory is represented by its
title (directory base name) and the contents of its file0 as a list of
raw lines, none when the marker file is absent (is_valid false); the
static ROOM_IDS table is passed explicitly since it lives in a separate
data module. Errors carry the Python exception class name. -/
def mkSave (title : String) (file0Lines : Option (List String))
    (rooms : List RoomRec) : Except String Save :=
  match file0Lines with
  | none => Except.ok (emptySave title)
  | some data =>
    match getLine data 0 with
    | Except.error e => Except.error e
    | Except.ok nameV =>
    match getLine data 35 with
    | Except.error e => Except.error e
    | Except.ok funV =>
    match getLine data 1 with
    | Except.error e => Except.error e
    | Except.ok loveV =>
    match getLine data 2 with
    | Except.error e => Except.error e
    | Except.ok hpV =>
    match getLine data 10 with
    | Except.error e => Except.error e
    | Except.ok goldV =>
    match getLine data 9 with
    | Except.error e => Except.error e
    | Except.ok expV =>
    match getLine data 11 with
    | Except.error e => Except.error e
    | Except.ok killsV =>
    match getLine data 547 with
    | Except.error e => Except.error e
    | Except.ok ridV =>
    match pyInt ridV with
    | none => Except.error "ValueError"
    | some ridN =>
    match pyGet rooms ridN with
    | none => Except.error "IndexError"
    | some room =>
    match getLine data 548 with
    | Except.error e => Except.error e
    | Except.ok ptV =>
    match pyInt ptV with
    | none => Except.error "ValueError"
    | some ticks =>
    match genocideOf data (room.area.getD "") loveV with
    | Except.error e => Except.error e
    | Except.ok g =>
      Except.ok
        { TITLE := title
          NAME := nameV
          FUN := funV
          LOVE := loveV
          HP := hpV
          GOLD := goldV
          EXP := expV
          kills := killsV
          room_id := ridV
          room_name := room.name.getD ""
          room_area := room.area.getD ""
          playtime := some (pyRoundDiv30 ticks)
          genocide := GenoVal.bool g
          data := data }

/-! ## Spec-side statement of the classifier (for the refinement claim)

The following two definitions follow the words of the specification's
classification algorithm, to be compared against the classifier embedded
from the source above. -/

/-- Progress rank as the spec words it: ERROR maps to 0, the six named
regions to 1..6 case-insensitively, anything else to 7. -/
def specRank (area : String) : Nat :=
  if lowerStr area == "error" then 0
  else if lowerStr area == "ruins" then 1
  else if lowerStr area == "snowdin" then 2
  else if lowerStr area == "waterfall" then 3
  else if lowerStr area == "hotland" then 4
  else if lowerStr area == "core" then 5
  else if lowerStr area == "new home" then 6
  else 7

/-- The classifier as the spec words it: include each check only when
the progress rank reaches its threshold, take the conjunction of the
included checks (vacuously true when none apply), and or the result with
the line-510 override flag. Lines are addressed by index and stripped. -/
def specGenocide (data : List String) (area : String) : Bool :=
  let rank := specRank area
  let checks : List Bool :=
    (if 1 ≤ rank then [pystrip ((data.get? 251).getD "") == "1"] else []) ++
    (if 2 ≤ rank then [pystrip ((data.get? 252).getD "") == "1"] else []) ++
    (if 3 ≤ rank then [pystrip ((data.get? 253).getD "") == "1"] else []) ++
    (if 4 ≤ rank then
       [pystrip ((data.get? 254).getD "") == "1" ||
        pystrip ((data.get? 255).getD "") == "1"] else []) ++
    (if 6 ≤ rank then
       [match pyInt (pystrip ((data.get? 1).getD "")) with
        | some l => decide (19 ≤ l)
        | none => false] else [])
  checks.all id || pystrip ((data.get? 510).getD "") == "1"

/-! ## Configuration persistence (load_config / save_config) -/

/-- A parsed configuration object: a JSON object modelled as a list of
key-value pairs (values kept as strings, which is all the module uses). -/
def ConfigMap : Type := List (String × String)

/-- State of the configuration file on disk: absent, or present with the
outcome of attempting to read and parse it (none models content that
json.load rejects or a file that cannot be read). -/
inductive ConfigFileState where
  | absent : ConfigFileState
  | present : Option ConfigMap → ConfigFileState

/-- Embedding of load_config: if the file exists, try to parse it and
return the result; a parse or read exception falls through (except:
pass) to returning the empty configuration, as does an absent file. -/
def load_config (st : ConfigFileState) : ConfigMap :=
  match st with
  | ConfigFileState.present p =>
    match p with
    | some m => m
    | none => []
  | ConfigFileState.absent => []

/-- Embedding of save_config. The call
CONFIG_FILE.parent.mkdir(parents=True, exist_ok=True) runs before the
try block, so a failure there (mkdirOk = false, e.g. a permission error
or a plain file blocking a path component) propagates out of the
function as an exception, modelled as Except.error. A failure opening
or writing the file inside the try (writeOk = false) is swallowed
(except: pass), leaving the previous on-disk file state, and the
function returns. The state tracks the configuration file itself; the
parent directory created as a side effect is not part of it. -/
def save_config (st : ConfigFileState) (c : ConfigMap)
    (mkdirOk writeOk : Bool) : Except Unit ConfigFileState :=
  if mkdirOk then
    Except.ok (if writeOk then ConfigFileState.present (some c) else st)
  else Except.error ()

/-! ## Filesystem model for the snapshot manager

A directory is a finite association list of named entries; an entry is a
file with byte contents or a subdirectory. The live save directory and
each backup directory are such lists; the backup world maps backup path
strings to their directory contents. -/

mutual
/-- One filesystem entry: a regular file with its bytes, or a directory. -/
inductive Entry where
  | file : List Nat → Entry
  | dir : EList → Entry

/-- Contents of a directory: named entries, names unique in well-formed
directories. -/
inductive EList where
  | nil : EList
  | cons : String → Entry → EList → EList
end

/-- Look a name up in a directory. -/
def elookup : EList → String → Option Entry
  | EList.nil, _ => none
  | EList.cons n e rest, name => if n == name then some e else elookup rest name

/-- Does a directory contain an entry of this name (Path.exists on the
child, whatever its kind)? -/
def hasKeyE (l : EList) (name : String) : Bool := (elookup l name).isSome

/-- Write an entry under a name: replace the entry of that name in
place, or append a new one. -/
def eset : EList → String → Entry → EList
  | EList.nil, name, v => EList.cons name v EList.nil
  | EList.cons n e rest, name, v =>
    if n == name then EList.cons name v rest else EList.cons n e (eset rest name v)

/-- Concatenation of directory listings (used only to state lemmas). -/
def eappend : EList → EList → EList
  | EList.nil, l => l
  | EList.cons n e rest, l => EList.cons n e (eappend rest l)

mutual
/-- Well-formed entry: directory names are unique at every level. -/
def wfE : Entry → Bool
  | Entry.file _ => true
  | Entry.dir l => wfL l

/-- Well-formed directory listing: no duplicate names, entries
well-formed. -/
def wfL : EList → Bool
  | EList.nil => true
  | EList.cons n e rest => !hasKeyE rest n && wfE e && wfL rest
end

mutual
/-- Copy one named entry into a destination directory, modelling the
copy step of the restore loop: a file is copied with shutil.copy (an
existing destination directory of that name receives the file inside
itself, two nested directory levels raise IsADirectoryError), a
directory is copied with shutil.copytree(dirs_exist_ok=True) (merge
into an existing directory of that name, error if a file of that name
is in the way). The Bool is false when a copy error is raised; the
returned directory is the state reached at that point. -/
def copyEntryInto (d : EList) (name : String) (e : Entry) : EList × Bool :=
  match e with
  | Entry.file c =>
    match elookup d name with
    | some (Entry.dir sub) =>
      match elookup sub name with
      | some (Entry.dir _) => (d, false)
      | _ => (eset d name (Entry.dir (eset sub name (Entry.file c))), true)
    | _ => (eset d name (Entry.file c), true)
  | Entry.dir src =>
    match elookup d name with
    | some (Entry.file _) => (d, false)
    | some (Entry.dir sub) =>
      let p := copyAllInto sub src
      (eset d name (Entry.dir p.1), p.2)
    | none =>
      let p := copyAllInto EList.nil src
      (eset d name (Entry.dir p.1), p.2)

/-- Copy every entry of src into the destination directory in order,
stopping at the first raised copy error. -/
def copyAllInto (d : EList) (src : EList) : EList × Bool :=
  match src with
  | EList.nil => (d, true)
  | EList.cons n e rest =>
    let p := copyEntryInto d n e
    if p.2 then copyAllInto p.1 rest else (p.1, false)
end

/-- Look a path up in the backup world. -/
def alookup {α : Type} : List (String × α) → String → Option α
  | [], _ => none
  | (n, d) :: rest, name => if n == name then some d else alookup rest name

/-- Bind a path in the backup world. -/
def aset {α : Type} : List (String × α) → String → α → List (String × α)
  | [], name, v => [(name, v)]
  | (n, d) :: rest, name, v =>
    if n == name then (name, v) :: rest else (n, d) :: aset rest name v

/-- The filesystem as the snapshot manager sees it: the contents of the
fixed live save directory (GAME_SAVE_DIR), and the directory contents
behind every other path (backup directories). The live directory is a
distinct location, never itself a backup path. -/
structure FS where
  live : EList
  world : List (String × EList)

/-- The recognized-save-marker test of load_save line 191: any of
file0, file9 or undertale.ini exists in the live directory. -/
def hasMarker (d : EList) : Bool :=
  hasKeyE d "file0" || hasKeyE d "file9" || hasKeyE d "undertale.ini"

/-- Outcome of a snapshot-manager operation: the distinct status
messages load_save can print, plus an escaped exception. -/
inductive Outcome where
  | notFound : Outcome
  | refused : Outcome
  | loaded : Outcome
  | raised : Outcome

/-- Embedding of load_save(path, rm): a missing backup path is reported
as not found with no change; a live directory holding a save marker is
either cleared entirely (rm) or the operation is refused with no change;
then every entry of the backup is copied into the live directory. The
clearing loop deletes each entry of the live directory (rmtree for
directories, unlink for files), leaving it empty. -/
def load_save (fs : FS) (path : String) (rm : Bool) : Outcome × FS :=
  match alookup fs.world path with
  | none => (Outcome.notFound, fs)
  | some backup =>
    if hasMarker fs.live then
      if rm then
        let p := copyAllInto EList.nil backup
        ((if p.2 then Outcome.loaded else Outcome.raised), ⟨p.1, fs.world⟩)
      else (Outcome.refused, fs)
    else
      let p := copyAllInto fs.live backup
      ((if p.2 then Outcome.loaded else Outcome.raised), ⟨p.1, fs.world⟩)

/-- Embedding of backup_save(name, backup_dir, rm): create the backup
directory if absent (mkdir parents exist_ok), copy the whole live tree
into it with copytree(dirs_exist_ok=True), then, when rm is set and no
exception was raised, delete every entry directly inside the live
directory. The Bool is false when the copy raised. -/
def backup_save (fs : FS) (name : String) (rm : Bool) : FS × Bool :=
  let root0 := (alookup fs.world name).getD EList.nil
  let p := copyAllInto root0 fs.live
  let world1 := aset fs.world name p.1
  if rm && p.2 then (⟨EList.nil, world1⟩, p.2) else (⟨fs.live, world1⟩, p.2)

/-! ## Association-list and directory lemmas -/

theorem elookup_eset_self (d : EList) (n : String) (v : Entry) :
    elookup (eset d n v) n = some v := by
  match d with
  | EList.nil => simp [eset, elookup]
  | EList.cons m e rest =>
    cases hmn : m == n with
    | true => simp [eset, hmn, elookup]
    | false => simp [eset, hmn, elookup, elookup_eset_self rest n v]

theorem elookup_eset_ne (d : EList) (n name : String) (v : Entry)
    (h : ¬ n = name) : elookup (eset d n v) name = elookup d name := by
  match d with
  | EList.nil =>
    simp [eset, elookup]
    exact fun hc => absurd hc h
  | EList.cons m e rest =>
    cases hmn : m == n with
    | true =>
      have hm : m = n := by simpa using hmn
      subst hm
      simp [eset, hmn, elookup, h]
    | false => simp [eset, hmn, elookup, elookup_eset_ne rest n name v h]

theorem eset_self_id (d : EList) (n : String) (v : Entry)
    (h : elookup d n = some v) : eset d n v = d := by
  match d with
  | EList.nil => simp [elookup] at h
  | EList.cons m e rest =>
    cases hmn : m == n with
    | true =>
      have hm : m = n := by simpa using hmn
      subst hm
      simp [elookup] at h
      simp [eset, h]
    | false =>
      simp [elookup, hmn] at h
      simp [eset, hmn, eset_self_id rest n v h]

theorem alookup_aset_self {α : Type} (w : List (String × α)) (n : String) (v : α) :
    alookup (aset w n v) n = some v := by
  induction w with
  | nil => simp [aset, alookup]
  | cons p rest ih =>
    obtain ⟨m, d⟩ := p
    cases hmn : m == n with
    | true => simp [aset, hmn, alookup]
    | false => simp [aset, hmn, alookup, ih]

/-! ## Claim theorems: snapshot-manager error handling -/

/-- C7: load_save on a path that does not exist reports the distinct
not-found outcome and leaves the whole filesystem state unchanged. -/
theorem C7_load_save_not_found (fs : FS) (path : String) (rm : Bool)
    (h : alookup fs.world path = none) :
    load_save fs path rm = (Outcome.notFound, fs) := by
  simp [load_save, h]

def fsC7 : FS := ⟨EList.cons "file0" (Entry.file [0]) EList.nil, []⟩

theorem C7_witness :
    alookup fsC7.world "missing" = none ∧
    load_save fsC7 "missing" true = (Outcome.notFound, fsC7) :=
  ⟨rfl, C7_load_save_not_found fsC7 "missing" true rfl⟩

/-- C3: load_save with rm=false on an existing backup path, when the
live directory holds a recognized save marker, reports the refusal
outcome and leaves the filesystem (in particular the live directory and
its file0) unchanged. -/
theorem C3_load_save_refusal (fs : FS) (path : String) (backup : EList)
    (h1 : alookup fs.world path = some backup)
    (h2 : hasMarker fs.live = true) :
    load_save fs path false = (Outcome.refused, fs) := by
  simp [load_save, h1, h2]

def fsC3 : FS :=
  ⟨EList.cons "file0" (Entry.file [3]) EList.nil,
   [("b", EList.cons "file0" (Entry.file [9]) EList.nil)]⟩

theorem C3_witness :
    hasMarker fsC3.live = true ∧
    load_save fsC3 "b" false = (Outcome.refused, fsC3) ∧
    elookup (load_save fsC3 "b" false).2.live "file0" = some (Entry.file [3]) :=
  ⟨rfl,
   C3_load_save_refusal fsC3 "b" (EList.cons "file0" (Entry.file [9]) EList.nil) rfl rfl,
   by rfl⟩

/-- C9 counterexample: save_config does not swallow every write
failure. The parent-directory creation step precedes the try block, so
when it fails the call raises instead of returning silently — here shown
at a concrete input: an absent config file, a one-key configuration, a
failing mkdir and a working file write still produce the exception
outcome. -/
theorem C9_counterexample :
    save_config ConfigFileState.absent [("backup_dir", "/b")] false true =
      Except.error () :=
  rfl

/-- C9 amended: load_config returns the empty configuration for an
absent or unreadable/unparseable file and the parsed mapping (all keys
preserved) otherwise, never an error; save_config swallows failures of
opening or writing the configuration file silently, leaving the
previous on-disk file state, but a failure of the parent-directory
creation step that precedes the try block propagates as an exception. -/
theorem C9_amended_config_error_handling :
    load_config ConfigFileState.absent = [] ∧
    load_config (ConfigFileState.present none) = [] ∧
    (∀ m : ConfigMap, load_config (ConfigFileState.present (some m)) = m) ∧
    (∀ (st : ConfigFileState) (c : ConfigMap),
       save_config st c true false = Except.ok st ∧
       save_config st c true true = Except.ok (ConfigFileState.present (some c)) ∧
       save_config st c false false = Except.error () ∧
       save_config st c false true = Except.error ()) :=
  ⟨rfl, rfl, fun _ => rfl, fun _ _ => ⟨rfl, rfl, rfl, rfl⟩⟩

/-! ## Copy-loop preservation lemmas -/

theorem copyEntryInto_lookup_none (d : EList) (n name : String) (e : Entry)
    (hd : elookup d name = none) (hne : ¬ n = name) :
    elookup (copyEntryInto d n e).1 name = none := by
  cases e with
  | file c =>
    cases h1 : elookup d n with
    | none => simp [copyEntryInto, h1, elookup_eset_ne d n name _ hne, hd]
    | some e1 =>
      cases e1 with
      | file c1 => simp [copyEntryInto, h1, elookup_eset_ne d n name _ hne, hd]
      | dir sub =>
        cases h2 : elookup sub n with
        | none => simp [copyEntryInto, h1, h2, elookup_eset_ne d n name _ hne, hd]
        | some e2 =>
          cases e2 with
          | file c2 => simp [copyEntryInto, h1, h2, elookup_eset_ne d n name _ hne, hd]
          | dir sub2 => simp [copyEntryInto, h1, h2, hd]
  | dir src =>
    cases h1 : elookup d n with
    | none => simp [copyEntryInto, h1, elookup_eset_ne d n name _ hne, hd]
    | some e1 =>
      cases e1 with
      | file c1 => simp [copyEntryInto, h1, hd]
      | dir sub => simp [copyEntryInto, h1, elookup_eset_ne d n name _ hne, hd]

theorem copyAllInto_lookup_none (d src : EList) (name : String)
    (hd : elookup d name = none) (hs : elookup src name = none) :
    elookup (copyAllInto d src).1 name = none := by
  match src with
  | EList.nil => simpa [copyAllInto] using hd
  | EList.cons n e rest =>
    have hne : ¬ n = name := by
      intro hh
      subst hh
      simp [elookup] at hs
    have hs' : elookup rest name = none := by
      simpa [elookup, hne] using hs
    have h1 := copyEntryInto_lookup_none d n name e hd hne
    unfold copyAllInto
    cases hok : (copyEntryInto d n e).2 with
    | true => simpa [hok] using copyAllInto_lookup_none (copyEntryInto d n e).1 rest name h1 hs'
    | false => simpa [hok] using h1

/-! ## Claim C2: clearing the live directory on restore -/

def bakC2 : EList := EList.cons "new" (Entry.file [2]) EList.nil

def fsC2 : FS := ⟨EList.cons "junk" (Entry.file [1]) EList.nil, [("b", bakC2)]⟩

/-- C2 counterexample: restoring an existing backup with clearLive=true
into a live directory that holds no recognized save marker deletes
nothing — the pre-existing file junk, absent from the backup, still
exists afterwards, contradicting the claim. -/
theorem C2_counterexample :
    alookup fsC2.world "b" = some bakC2 ∧
    elookup bakC2 "junk" = none ∧
    elookup fsC2.live "junk" = some (Entry.file [1]) ∧
    (load_save fsC2 "b" true).1 = Outcome.loaded ∧
    elookup (load_save fsC2 "b" true).2.live "junk" = some (Entry.file [1]) :=
  ⟨rfl, rfl, rfl, rfl, rfl⟩

/-- C2 amended: with clearLive=true on an existing backup path, the live
directory is cleared before copying only when it holds a recognized save
marker (file0, file9 or undertale.ini); in that case every file present
in the live directory before the call and absent from the backup no
longer exists afterwards. -/
theorem C2_amended_clear_needs_marker (fs : FS) (path name : String) (backup : EList)
    (h1 : alookup fs.world path = some backup)
    (h2 : hasMarker fs.live = true)
    (h3 : elookup backup name = none) :
    elookup (load_save fs path true).2.live name = none := by
  simp only [load_save, h1, h2, if_true]
  exact copyAllInto_lookup_none EList.nil backup name rfl h3

def fsC2w : FS :=
  ⟨EList.cons "file0" (Entry.file [5]) (EList.cons "stale" (Entry.file [7]) EList.nil),
   [("b", bakC2)]⟩

theorem C2_witness :
    elookup fsC2w.live "stale" = some (Entry.file [7]) ∧
    elookup (load_save fsC2w "b" true).2.live "stale" = none :=
  ⟨rfl, C2_amended_clear_needs_marker fsC2w "b" "stale" bakC2 rfl rfl rfl⟩

/-! ## Claims C4 and C10: the invalid-save branch -/

/-- C4 counterexample: for a directory without the file0 marker the
constructed record's NAME field is "(Empty Save)", not the sentinel
"N/A" the claim asserts for every scalar field. -/
theorem C4_counterexample :
    mkSave "empty" none [] = Except.ok (emptySave "empty") ∧
    (emptySave "empty").NAME = "(Empty Save)" ∧
    ¬ (emptySave "empty").NAME = "N/A" :=
  ⟨rfl, rfl, by decide⟩

/-- C4 amended: constructing a Save for a directory without a file0
marker never fails, sets NAME to the sentinel "(Empty Save)", every
other scalar field to the sentinel "N/A", and the raw line list to
empty, touching no line of any file (it succeeds for every title and
every room table with no line data at all). -/
theorem C4_amended_invalid_sentinels (title : String) (rooms : List RoomRec) :
    mkSave title none rooms = Except.ok (emptySave title) ∧
    (emptySave title).NAME = "(Empty Save)" ∧
    (emptySave title).FUN = "N/A" ∧
    (emptySave title).LOVE = "N/A" ∧
    (emptySave title).HP = "N/A" ∧
    (emptySave title).GOLD = "N/A" ∧
    (emptySave title).EXP = "N/A" ∧
    (emptySave title).kills = "N/A" ∧
    (emptySave title).room_id = "N/A" ∧
    (emptySave title).room_name = "N/A" ∧
    (emptySave title).room_area = "N/A" ∧
    (emptySave title).data = [] :=
  ⟨rfl, rfl, rfl, rfl, rfl, rfl, rfl, rfl, rfl, rfl, rfl, rfl⟩

/-- C10: on the invalid branch the record deviates from the declared
shape — the playtime attribute is never assigned (modelled as none), and
the genocide attribute holds the string "N/A", which is nonempty (hence
truthy in Python) and is not a boolean value. -/
theorem C10_invalid_shape_deviation (title : String) (rooms : List RoomRec) :
    mkSave title none rooms = Except.ok (emptySave title) ∧
    (emptySave title).playtime = none ∧
    (emptySave title).genocide = GenoVal.str "N/A" ∧
    ¬ ("N/A" : String) = "" ∧
    (∀ b : Bool, ¬ (emptySave title).genocide = GenoVal.bool b) :=
  ⟨rfl, rfl, rfl, by decide, fun _ h => GenoVal.noConfusion h⟩

/-! ## Inversion of the valid-save constructor -/

theorem getLine_eq_ok (data : List String) (i : Nat) (v : String)
    (h : getLine data i = Except.ok v) :
    i < data.length ∧ v = pystrip ((data.get? i).getD "") := by
  unfold getLine at h
  cases hx : data.get? i with
  | none => rw [hx] at h; cases h
  | some str =>
    rw [hx] at h
    cases h
    refine ⟨?_, by simp [hx]⟩
    by_contra hlt
    rw [List.get?_eq_none.mpr (by omega)] at hx
    cases hx

theorem getLine_ok (data : List String) (i : Nat) (h : i < data.length) :
    getLine data i = Except.ok (pystrip ((data.get? i).getD "")) := by
  unfold getLine
  cases hx : data.get? i with
  | none =>
    rw [List.get?_eq_none] at hx
    omega
  | some str => simp

theorem mkSave_ok_inv (title : String) (data : List String)
    (rooms : List RoomRec) (s : Save)
    (h : mkSave title (some data) rooms = Except.ok s) :
    549 ≤ data.length ∧
    ∃ (ridN : Int) (room : RoomRec) (ticks : Int) (g : Bool),
      pyInt (pystrip ((data.get? 547).getD "")) = some ridN ∧
      pyGet rooms ridN = some room ∧
      pyInt (pystrip ((data.get? 548).getD "")) = some ticks ∧
      genocideOf data (room.area.getD "") (pystrip ((data.get? 1).getD "")) =
        Except.ok g ∧
      s.room_area = room.area.getD "" ∧
      s.LOVE = pystrip ((data.get? 1).getD "") ∧
      s.playtime = some (pyRoundDiv30 ticks) ∧
      s.genocide = GenoVal.bool g ∧
      s.data = data := by
  unfold mkSave at h
  cases h0 : getLine data 0 with
  | error e => simp [h0] at h
  | ok nameV =>
  simp only [h0] at h
  cases h35 : getLine data 35 with
  | error e => simp [h35] at h
  | ok funV =>
  simp only [h35] at h
  cases h1 : getLine data 1 with
  | error e => simp [h1] at h
  | ok loveV =>
  simp only [h1] at h
  cases h2 : getLine data 2 with
  | error e => simp [h2] at h
  | ok hpV =>
  simp only [h2] at h
  cases h10 : getLine data 10 with
  | error e => simp [h10] at h
  | ok goldV =>
  simp only [h10] at h
  cases h9 : getLine data 9 with
  | error e => simp [h9] at h
  | ok expV =>
  simp only [h9] at h
  cases h11 : getLine data 11 with
  | error e => simp [h11] at h
  | ok killsV =>
  simp only [h11] at h
  cases h547 : getLine data 547 with
  | error e => simp [h547] at h
  | ok ridV =>
  simp only [h547] at h
  cases hrid : pyInt ridV with
  | none => simp [hrid] at h
  | some ridN =>
  simp only [hrid] at h
  cases hroom : pyGet rooms ridN with
  | none => simp [hroom] at h
  | some room =>
  simp only [hroom] at h
  cases h548 : getLine data 548 with
  | error e => simp [h548] at h
  | ok ptV =>
  simp only [h548] at h
  cases hticks : pyInt ptV with
  | none => simp [hticks] at h
  | some ticks =>
  simp only [hticks] at h
  cases hgen : genocideOf data (room.area.getD "") loveV with
  | error e => simp [hgen] at h
  | ok g =>
  simp only [hgen] at h
  obtain ⟨h548lt, h548v⟩ := getLine_eq_ok data 548 ptV h548
  obtain ⟨h1lt, h1v⟩ := getLine_eq_ok data 1 loveV h1
  obtain ⟨h547lt, h547v⟩ := getLine_eq_ok data 547 ridV h547
  have hs : s = _ := (Except.ok.injEq _ _).mp h.symm
  refine ⟨by omega, ridN, room, ticks, g, ?_, hroom, ?_, ?_, ?_, ?_, ?_, ?_, ?_⟩
  · rw [← h547v]; exact hrid
  · rw [← h548v]; exact hticks
  · rw [← h1v]; exact hgen
  · rw [hs]
  · rw [hs, ← h1v]
  · rw [hs]
  · rw [hs]
  · rw [hs]

/-! ## Claim C8: playtime derivation -/

/-- The rounded quotient is a nearest integer to ticks/30: the rounded
value times 30 differs from the tick count by at most half of 30. -/
theorem pyRoundDiv30_nearest (t : Int) :
    (30 * pyRoundDiv30 t - t).natAbs ≤ 15 := by
  unfold pyRoundDiv30
  split
  · omega
  · split
    · omega
    · split <;> omega

/-- C8: for every valid save the playtime is the raw tick value at line
index 548, divided by 30 and rounded to the nearest whole second (ties
to even, as Python round behaves). -/
theorem C8_playtime_rounding (title : String) (data : List String)
    (rooms : List RoomRec) (s : Save)
    (h : mkSave title (some data) rooms = Except.ok s) :
    ∃ ticks : Int,
      pyInt (pystrip ((data.get? 548).getD "")) = some ticks ∧
      s.playtime = some (pyRoundDiv30 ticks) ∧
      (30 * pyRoundDiv30 ticks - ticks).natAbs ≤ 15 := by
  obtain ⟨hlen, ridN, room, ticks, g, _, _, hticks, _, _, _, hpt, _, _⟩ :=
    mkSave_ok_inv title data rooms s h
  exact ⟨ticks, hticks, hpt, pyRoundDiv30_nearest ticks⟩

/-- Synthetic valid save used by the witnesses: 601 lines of "0" with a
name, a first-region room id and 900 playtime ticks. -/
def data1 : List String :=
  ((((List.replicate 601 "0").set 0 "Frisk").set 547 "4").set 548 "900")

/-- Room table fragment used by the witnesses: index 0 is the reserved
ERROR entry and index 4 a RUINS room, as in the shipped table. -/
def rooms1 : List RoomRec :=
  [⟨some "0", some "ERROR", some "ERROR"⟩,
   ⟨some "1", some "X", some "X"⟩,
   ⟨some "2", some "X", some "X"⟩,
   ⟨some "3", some "X", some "X"⟩,
   ⟨some "4", some "RUINS", some "Beginning"⟩]

/-- The record mkSave produces for data1 and rooms1. -/
def save1 : Save :=
  { TITLE := "t", NAME := "Frisk", FUN := "0", LOVE := "0", HP := "0", GOLD := "0",
    EXP := "0", kills := "0", room_id := "4", room_name := "Beginning",
    room_area := "RUINS", playtime := some 30, genocide := GenoVal.bool false,
    data := data1 }

set_option maxRecDepth 1000000 in
theorem C8_witness :
    (∃ ticks : Int,
      pyInt (pystrip ((data1.get? 548).getD "")) = some ticks ∧
      save1.playtime = some (pyRoundDiv30 ticks) ∧
      (30 * pyRoundDiv30 ticks - ticks).natAbs ≤ 15) ∧
    save1.playtime = some 30 :=
  ⟨C8_playtime_rounding "t" data1 rooms1 save1 (by rfl), rfl⟩

/-! ## Claim C5: vacuous truth at progress rank 0 -/

/-- C5: for a valid save whose resolved room area has progress rank 0,
no checks are included and the classifier is vacuously true (the
override flag, here hypothesised not set, is not even needed). -/
theorem C5_rank0_vacuously_true (title : String) (data : List String)
    (rooms : List RoomRec) (s : Save)
    (h : mkSave title (some data) rooms = Except.ok s)
    (h0 : areaRank s.room_area = 0)
    (_hov : ¬ pystrip ((data.get? 510).getD "") = "1") :
    s.genocide = GenoVal.bool true := by
  obtain ⟨hlen, ridN, room, ticks, g, _, _, _, hgen, harea, _, _, hgeno, _⟩ :=
    mkSave_ok_inv title data rooms s h
  rw [harea] at h0
  have e510 := getLine_ok data 510 (by omega)
  unfold genocideOf at hgen
  simp only [h0, e510] at hgen
  norm_num at hgen
  rw [hgeno, hgen]

def data5 : List String := ((List.replicate 601 "0").set 0 "Frisk")

/-- The record mkSave produces for data5 and rooms1 (room id 0, the
ERROR area). -/
def save5 : Save :=
  { TITLE := "t", NAME := "Frisk", FUN := "0", LOVE := "0", HP := "0", GOLD := "0",
    EXP := "0", kills := "0", room_id := "0", room_name := "ERROR",
    room_area := "ERROR", playtime := some 0, genocide := GenoVal.bool true,
    data := data5 }

set_option maxRecDepth 1000000 in
theorem C5_witness :
    areaRank save5.room_area = 0 ∧
    ¬ pystrip ((data5.get? 510).getD "") = "1" ∧
    save5.genocide = GenoVal.bool true :=
  ⟨rfl, by decide,
   C5_rank0_vacuously_true "t" data5 rooms1 save5 (by rfl) rfl (by decide)⟩

/-! ## Claim C1: the classifier refines the spec formula -/

theorem areaRank_le7 (area : String) : areaRank area ≤ 7 := by
  unfold areaRank
  split_ifs <;> omega

theorem genocideOf_spec (data : List String) (area : String) (g : Bool)
    (hlen : 549 ≤ data.length)
    (hgen : genocideOf data area (pystrip ((data.get? 1).getD "")) = Except.ok g) :
    g = specGenocide data area := by
  have e251 := getLine_ok data 251 (by omega)
  have e252 := getLine_ok data 252 (by omega)
  have e253 := getLine_ok data 253 (by omega)
  have e254 := getLine_ok data 254 (by omega)
  have e255 := getLine_ok data 255 (by omega)
  have e510 := getLine_ok data 510 (by omega)
  have hrank : specRank area = areaRank area := rfl
  unfold genocideOf at hgen
  unfold specGenocide
  rw [hrank]
  have hr7 : areaRank area ≤ 7 := areaRank_le7 area
  generalize hg : areaRank area = r at hgen hr7 ⊢
  clear hg
  cases hl : pyInt (pystrip ((data.get? 1).getD "")) with
  | none =>
    interval_cases r <;>
      simp_all [e251, e252, e253, e254, e255, e510, loveCheck, Except.map]
  | some l =>
    interval_cases r <;>
      simp_all [e251, e252, e253, e254, e255, e510, loveCheck, Except.map]

/-- C1: for every valid save the genocide classifier equals the spec's
rank-gated formula: the area name maps case-insensitively to a progress
rank, each region check is included only from its rank threshold on, and
the result is the conjunction of the included checks or-ed with the
line-510 override flag. -/
theorem C1_classifier_refines_spec (title : String) (data : List String)
    (rooms : List RoomRec) (s : Save)
    (h : mkSave title (some data) rooms = Except.ok s) :
    s.genocide = GenoVal.bool (specGenocide data s.room_area) := by
  obtain ⟨hlen, ridN, room, ticks, g, _, _, _, hgen, harea, _, _, hgeno, _⟩ :=
    mkSave_ok_inv title data rooms s h
  rw [hgeno, harea]
  exact congrArg GenoVal.bool (genocideOf_spec data (room.area.getD "") g hlen hgen)

set_option maxRecDepth 1000000 in
theorem C1_witness :
    mkSave "t" (some data1) rooms1 = Except.ok save1 ∧
    save1.genocide = GenoVal.bool (specGenocide data1 save1.room_area) ∧
    specGenocide data1 save1.room_area = false :=
  ⟨by rfl, C1_classifier_refines_spec "t" data1 rooms1 save1 (by rfl), by rfl⟩

/-! ## Claim C6: backup then restore round-trips the live directory -/

theorem eappend_nil (a : EList) : eappend a EList.nil = a := by
  match a with
  | EList.nil => simp [eappend]
  | EList.cons n e rest => simp [eappend, eappend_nil rest]

theorem eappend_assoc (a b c : EList) :
    eappend (eappend a b) c = eappend a (eappend b c) := by
  match a with
  | EList.nil => simp [eappend]
  | EList.cons n e rest => simp [eappend, eappend_assoc rest b c]

theorem eset_fresh (d : EList) (n : String) (v : Entry)
    (h : elookup d n = none) :
    eset d n v = eappend d (EList.cons n v EList.nil) := by
  match d with
  | EList.nil => simp [eset, eappend]
  | EList.cons m e rest =>
    cases hmn : m == n with
    | true => simp [elookup, hmn] at h
    | false =>
      have h' : elookup rest n = none := by simpa [elookup, hmn] using h
      simp [eset, hmn, eappend, eset_fresh rest n v h']

mutual
theorem copyEntryInto_fresh (d : EList) (name : String) (e : Entry)
    (hw : wfE e = true) (hd : elookup d name = none) :
    copyEntryInto d name e = (eset d name e, true) :=
  match e with
  | Entry.file c => by simp [copyEntryInto, hd]
  | Entry.dir src => by
    have hsrc : wfL src = true := by simpa [wfE] using hw
    have hcopy := copyAllInto_fresh EList.nil src hsrc (fun _ _ => rfl)
    simp [copyEntryInto, hd, hcopy, eappend]

theorem copyAllInto_fresh (d : EList) (src : EList)
    (hw : wfL src = true)
    (hd : ∀ n, hasKeyE src n = true → elookup d n = none) :
    copyAllInto d src = (eappend d src, true) :=
  match src with
  | EList.nil => by simp [copyAllInto, eappend_nil]
  | EList.cons n e rest => by
    have hw' : hasKeyE rest n = false ∧ wfE e = true ∧ wfL rest = true := by
      simpa [wfL, Bool.and_eq_true, Bool.not_eq_true', and_assoc] using hw
    have hdn : elookup d n = none := hd n (by simp [hasKeyE, elookup])
    have h1 := copyEntryInto_fresh d n e hw'.2.1 hdn
    have hd' : ∀ m, hasKeyE rest m = true → elookup (eset d n e) m = none := by
      intro m hm
      have hnm : ¬ n = m := by
        intro hh
        subst hh
        rw [hw'.1] at hm
        cases hm
      rw [elookup_eset_ne d n m e hnm]
      apply hd m
      simp only [hasKeyE, elookup] at hm ⊢
      cases hx : n == m with
      | true => simp [hx]
      | false => simpa [hx] using hm
    have h2 := copyAllInto_fresh (eset d n e) rest hw'.2.2 hd'
    rw [eset_fresh d n e hdn] at h2
    simp [copyAllInto, h1, h2, eset_fresh d n e hdn, eappend_assoc, eappend]
end

mutual
theorem copyEntryInto_self (d : EList) (name : String) (e : Entry)
    (hw : wfE e = true) (h : elookup d name = some e) :
    copyEntryInto d name e = (d, true) :=
  match e with
  | Entry.file c => by
    simp [copyEntryInto, h, eset_self_id d name (Entry.file c) h]
  | Entry.dir src => by
    have hsrc : wfL src = true := by simpa [wfE] using hw
    have hcopy := copyAllInto_self src src hsrc (fun _ _ hx => hx)
    simp [copyEntryInto, h, hcopy, eset_self_id d name (Entry.dir src) h]

theorem copyAllInto_self (d src : EList)
    (hw : wfL src = true)
    (h : ∀ n e, elookup src n = some e → elookup d n = some e) :
    copyAllInto d src = (d, true) :=
  match src with
  | EList.nil => by simp [copyAllInto]
  | EList.cons n e rest => by
    have hw' : hasKeyE rest n = false ∧ wfE e = true ∧ wfL rest = true := by
      simpa [wfL, Bool.and_eq_true, Bool.not_eq_true', and_assoc] using hw
    have hde : elookup d n = some e := h n e (by simp [elookup])
    have h1 := copyEntryInto_self d n e hw'.2.1 hde
    have h' : ∀ m e2, elookup rest m = some e2 → elookup d m = some e2 := by
      intro m e2 hm
      have hnm : ¬ n = m := by
        intro hh
        subst hh
        have : hasKeyE rest n = true := by simp [hasKeyE, hm]
        rw [hw'.1] at this
        cases this
      apply h m e2
      simpa [elookup, hnm] using hm
    have h2 := copyAllInto_self d rest hw'.2.2 h'
    simp [copyAllInto, h1, h2]
end

/-- C6: creating a backup under a fresh name and then restoring that
backup with clearLive=true brings the live directory back to exactly its
original contents (every file byte-for-byte identical), for every
well-formed live directory. -/
theorem C6_backup_restore_roundtrip (fs : FS) (name : String)
    (hwf : wfL fs.live = true)
    (hfresh : alookup fs.world name = none) :
    (backup_save fs name false).2 = true ∧
    (load_save (backup_save fs name false).1 name true).1 = Outcome.loaded ∧
    (load_save (backup_save fs name false).1 name true).2.live = fs.live := by
  have hcopy : copyAllInto EList.nil fs.live = (fs.live, true) := by
    simpa [eappend] using copyAllInto_fresh EList.nil fs.live hwf (fun _ _ => rfl)
  have hbk : backup_save fs name false = (⟨fs.live, aset fs.world name fs.live⟩, true) := by
    simp [backup_save, hfresh, hcopy]
  rw [hbk]
  have hlook : alookup (aset fs.world name fs.live) name = some fs.live :=
    alookup_aset_self fs.world name fs.live
  by_cases hm : hasMarker fs.live = true
  · simp [load_save, hlook, hm, hcopy]
  · have hself := copyAllInto_self fs.live fs.live hwf (fun _ _ hx => hx)
    simp [load_save, hlook, hm, hself]

def fsC6 : FS := ⟨EList.cons "file0" (Entry.file [1, 2]) EList.nil, []⟩

theorem C6_witness :
    wfL fsC6.live = true ∧
    alookup fsC6.world "mybackup" = none ∧
    (backup_save fsC6 "mybackup" false).2 = true ∧
    (load_save (backup_save fsC6 "mybackup" false).1 "mybackup" true).1 =
      Outcome.loaded ∧
    (load_save (backup_save fsC6 "mybackup" false).1 "mybackup" true).2.live =
      fsC6.live := by
  have h := C6_backup_restore_roundtrip fsC6 "mybackup" rfl rfl
  exact ⟨rfl, rfl, h.1, h.2.1, h.2.2⟩

end UndertaleSpec
